import Mathlib

/-!
Verification of the message composition and delivery pipeline of
django-impression against its natural-language specification.

The embedding mirrors the Python sources under `impression/`:

* `impression/models/rate_limit.py` — `RateLimit.get_timeframe`,
  `RateLimit.check_service`;
* `impression/models/distribution.py` — `Distribution.collect_email_addresses`;
* `impression/models/service.py` — `Service.filter_unsubscribed`,
  `Service.collect_email_addresses`;
* `impression/models/email_address.py` — `EmailAddress.is_unsubscribed_from`;
* `impression/models/message.py` — `Message._pre_create_check`, `Message.save`,
  `Message.send`, `Message.get_final_emails`;
* `impression/management/commands/impression_send_emails.py`.

Machine-level conventions: Python `datetime` values are modelled by the
`PyDateTime` record together with proleptic-Gregorian day arithmetic
(`daysFromCivil`/`civilFromDays`, the standard civil-calendar algorithms that
CPython's `datetime` module implements); Python exceptions are modelled with
`Option`/`Except`; Django model rows are plain records and querysets are
lists/finsets of records.
-/

/-! ## Calendar model (Python `datetime`) -/

/-- Gregorian leap-year test, as in CPython's `datetime` module. -/
def isLeapYear (y : Nat) : Bool :=
  (y % 4 == 0 && y % 100 != 0) || (y % 400 == 0)

/-- Number of days in month `m` of year `y` (CPython `calendar` rule). -/
def daysInMonth (y m : Nat) : Nat :=
  if m = 2 then (if isLeapYear y then 29 else 28)
  else if m = 4 ∨ m = 6 ∨ m = 9 ∨ m = 11 then 30
  else 31

/-- A Python `datetime.datetime` value (naive or with a fixed timezone; the
code under test never mixes timezones, so the offset is not modelled). -/
structure PyDateTime where
  year : Nat
  month : Nat
  day : Nat
  hour : Nat
  minute : Nat
  second : Nat
  microsecond : Nat
deriving DecidableEq

/-- The field ranges `datetime.datetime` enforces on construction
(`MINYEAR = 1`, valid month/day for the given year, time fields in range). -/
def PyDateTime.valid (t : PyDateTime) : Prop :=
  1 ≤ t.year ∧ 1 ≤ t.month ∧ t.month ≤ 12 ∧ 1 ≤ t.day ∧
    t.day ≤ daysInMonth t.year t.month ∧ t.hour ≤ 23 ∧ t.minute ≤ 59 ∧
    t.second ≤ 59 ∧ t.microsecond ≤ 999999

/-- Days since 0000-03-01 of the civil date `y-m-d` (year `y ≥ 1`): the civil
calendar algorithm used by CPython's `datetime` ordinal arithmetic. -/
def daysFromCivil (y m d : Nat) : Nat :=
  let yAdj := if m ≤ 2 then y - 1 else y
  let era := yAdj / 400
  let yoe := yAdj % 400
  let mp := if 2 < m then m - 3 else m + 9
  let doy := (153 * mp + 2) / 5 + (d - 1)
  let doe := yoe * 365 + yoe / 4 - yoe / 100 + doy
  era * 146097 + doe

/-- Inverse of `daysFromCivil`: civil date of a day count since 0000-03-01. -/
def civilFromDays (z : Nat) : Nat × Nat × Nat :=
  let era := z / 146097
  let doe := z % 146097
  let yoe := (doe - doe / 1460 + doe / 36524 - doe / 146096) / 365
  let y := yoe + era * 400
  let doy := doe - (365 * yoe + yoe / 4 - yoe / 100)
  let mp := (5 * doy + 2) / 153
  let d := doy - (153 * mp + 2) / 5 + 1
  let m := if mp < 10 then mp + 3 else mp - 9
  (if m ≤ 2 then y + 1 else y, m, d)

/-- `date.isoweekday()`: Monday = 1 … Sunday = 7.  Day 719468 since
0000-03-01 is 1970-01-01, a Thursday (iso 4), and 719468 % 7 = 1. -/
def PyDateTime.isoweekday (t : PyDateTime) : Nat :=
  (daysFromCivil t.year t.month t.day + 2) % 7 + 1

/-- Whole seconds since 0000-03-01 00:00:00. -/
def PyDateTime.totalSeconds (t : PyDateTime) : Nat :=
  daysFromCivil t.year t.month t.day * 86400 +
    t.hour * 3600 + t.minute * 60 + t.second

/-- Rebuild a `PyDateTime` from a second count, keeping a microsecond part. -/
def pyDateTimeOfSeconds (s : Nat) (micro : Nat) : PyDateTime :=
  match civilFromDays (s / 86400) with
  | (y, m, d) => ⟨y, m, d, s % 86400 / 3600, s % 86400 % 3600 / 60, s % 86400 % 60, micro⟩

/-- A Python `datetime.timedelta` made of whole seconds (the only durations
the code under test constructs; `rolling_window` defaults to one hour). -/
structure PyTimeDelta where
  seconds : Nat
deriving DecidableEq

/-- `datetime - timedelta`.  CPython performs exact calendar arithmetic; for
whole-second deltas the microsecond part is untouched.  (Results before year
1 are out of `datetime`'s range and never arise in the claims.) -/
def PyDateTime.subDelta (t : PyDateTime) (dur : PyTimeDelta) : PyDateTime :=
  pyDateTimeOfSeconds (t.totalSeconds - dur.seconds) t.microsecond

/-- `datetime.replace(day=d)`: CPython validates the new day against the
month length and raises `ValueError` (here `none`) when it is out of range.
The argument is an `Int` because the caller computes `then.day -
then.isoweekday()`, which can be non-positive. -/
def PyDateTime.replaceDay (t : PyDateTime) (d : Int) : Option PyDateTime :=
  if 1 ≤ d ∧ d ≤ (daysInMonth t.year t.month : Int) then
    some { t with day := d.toNat }
  else none

/-- Chronological key: for valid datetimes, microseconds since 0000-03-01.
Django's `created__gte`/`created__lte` lookups compare datetimes
chronologically, which on valid values coincides with this key's order. -/
def PyDateTime.stamp (t : PyDateTime) : Nat :=
  t.totalSeconds * 1000000 + t.microsecond

/-- Chronological `≤` on datetimes (as a Bool, for use in filters). -/
def PyDateTime.le (a b : PyDateTime) : Bool :=
  a.stamp ≤ b.stamp

/-! ## `impression/models/rate_limit.py` -/

/-- The `RateLimit` model row.  Integer choice fields keep their Python
constants: grouping `TOTAL = 0`, `PER_USER = 1`, `PER_GROUP = 2`; type
`BLOCK_PERIOD = 0`, `ROLLING_WINDOW = 1`; block period `HOUR = 0`, `DAY = 1`,
`WEEK = 2`, `MONTH = 3`.  `quantity` is a Django `IntegerField`, hence `Int`. -/
structure RateLimit where
  grouping : Int
  quantity : Int
  type : Int
  block_period : Int
  rolling_window : PyTimeDelta
deriving DecidableEq

def RateLimit.TOTAL : Int := 0
def RateLimit.PER_USER : Int := 1
def RateLimit.PER_GROUP : Int := 2
def RateLimit.BLOCK_PERIOD : Int := 0
def RateLimit.ROLLING_WINDOW : Int := 1
def RateLimit.HOUR : Int := 0
def RateLimit.DAY : Int := 1
def RateLimit.WEEK : Int := 2
def RateLimit.MONTH : Int := 3

/-- `RateLimit.get_timeframe(now)`.  `none` models an escaping exception:
either the `ValueError` raised by `datetime.replace` on an out-of-range day,
or the final `Exception("RateLimit type or block period not known.")`.
The nested structure mirrors the chain of `if`/`else` in the source; in the
`WEEK` step the source's redundant `hour=0` keyword is a no-op because the
hour was already zeroed in the `DAY` step. -/
def RateLimit.get_timeframe (rl : RateLimit) (now : PyDateTime) :
    Option (PyDateTime × PyDateTime) :=
  if rl.type = RateLimit.ROLLING_WINDOW then
    some (now.subDelta rl.rolling_window, now)
  else if rl.type = RateLimit.BLOCK_PERIOD then
    let then1 : PyDateTime := { now with microsecond := 0, second := 0, minute := 0 }
    if rl.block_period = RateLimit.HOUR then some (then1, now)
    else
      let then2 : PyDateTime := { then1 with hour := 0 }
      if rl.block_period = RateLimit.DAY then some (then2, now)
      else
        match then2.replaceDay ((then2.day : Int) - (then2.isoweekday : Int)) with
        | none => none
        | some then3 =>
          if rl.block_period = RateLimit.WEEK then some (then3, now)
          else
            match then3.replaceDay 1 with
            | none => none
            | some then4 =>
              if rl.block_period = RateLimit.MONTH then some (then4, now)
              else none
  else none

/-- The generic "user" a message is attributed to: a `(content type, pk)`
identity together with the pks of the groups the user belongs to. -/
structure UserRef where
  key : Nat × Nat
  groups : List Nat
deriving DecidableEq

/-- One row of `service.messages` as seen by `check_service`: its `created`
timestamp and its optional generic user. -/
structure MessageRow where
  created : PyDateTime
  user : Option UserRef
deriving DecidableEq

/-- Errors escaping `RateLimit.check_service`. -/
inductive CheckError
  /-- an exception propagating out of `get_timeframe` -/
  | timeframeError
  /-- the `ValueError("self.grouping is not a valid value …")` branch -/
  | groupingError
  /-- the `FieldError` Django raises when the per-group branch builds
  `base_query.filter(user__groups=g)`: the lookup must traverse `user`,
  which is a `GenericForeignKey`, and Django cannot resolve a query filter
  through one (it asks for a `GenericRelation` instead) -/
  | fieldError
deriving DecidableEq

/-- `RateLimit.check_service(service, user, groups)` over the list `msgs` of
the service's message rows, evaluated at time `now` (the source calls
`timezone.now()`; here the clock is a parameter).

The source's `elif` chain tests `grouping == PER_USER and user`, then
`grouping == PER_GROUP and groups`, then `grouping == TOTAL`, else raises
`ValueError`.  Since the three grouping constants are distinct, the chain is
written here as a decision on `grouping` first; a falsy `user` (i.e. `None`)
under `PER_USER`, or a falsy `groups` (`None` or empty) under `PER_GROUP`,
falls through every `elif` in the source and reaches the `raise`, which the
corresponding `error` branches reproduce.

The per-group branch itself never reaches its `max`: with a nonempty
`groups` it evaluates `base_query.filter(user__groups=g).count()` for the
first group, and the `user__groups` lookup traverses the
`GenericForeignKey` `user`, which Django's query compiler refuses with
`FieldError` before any row is counted. -/
def RateLimit.check_service (rl : RateLimit) (msgs : List MessageRow)
    (user : Option UserRef) (groups : Option (List Nat)) (now : PyDateTime) :
    Except CheckError Bool :=
  match rl.get_timeframe now with
  | none => Except.error CheckError.timeframeError
  | some (start, stop) =>
    let base := msgs.filter (fun m => start.le m.created && m.created.le stop)
    let countE : Except CheckError Nat :=
      if rl.grouping = RateLimit.PER_USER then
        match user with
        | some u =>
          Except.ok (base.filter (fun m => m.user.map UserRef.key = some u.key)).length
        | none => Except.error CheckError.groupingError
      else if rl.grouping = RateLimit.PER_GROUP then
        match groups with
        | some gs =>
          if gs = [] then Except.error CheckError.groupingError
          else Except.error CheckError.fieldError
        | none => Except.error CheckError.groupingError
      else if rl.grouping = RateLimit.TOTAL then
        Except.ok base.length
      else Except.error CheckError.groupingError
    countE.map (fun count => decide ((count : Int) < rl.quantity))

deriving instance DecidableEq for Except

/-! ## Theorems about the rate limiter -/

/-- Every month has at least one day. -/
theorem daysInMonth_pos (y m : Nat) : 1 ≤ daysInMonth y m := by
  unfold daysInMonth
  split
  · split <;> omega
  · split <;> omega

/-- The concrete `now` of the specification's rate-limit window examples. -/
def specNow : PyDateTime := ⟨2019, 12, 11, 4, 32, 45, 0⟩

/-- A block-period rate limit with the given period (grouping/quantity are
irrelevant to `get_timeframe`). -/
def blockRL (bp : Int) : RateLimit := ⟨0, 1, RateLimit.BLOCK_PERIOD, bp, ⟨3600⟩⟩

/-- A rolling-window rate limit of one hour. -/
def rollingHourRL : RateLimit := ⟨0, 1, RateLimit.ROLLING_WINDOW, 0, ⟨3600⟩⟩

/-- C3: for now = 2019-12-11 04:32:45, `get_timeframe` starts the window at
2019-12-11 04:00:00 for HOUR, 2019-12-11 00:00:00 for DAY, 2019-12-08
00:00:00 for WEEK (rolled back per ISO weekday), 2019-12-01 00:00:00 for
MONTH, and now minus one hour for a 1-hour ROLLING_WINDOW; every window ends
at `now`. -/
theorem get_timeframe_window_examples :
    (blockRL RateLimit.HOUR).get_timeframe specNow =
      some (⟨2019, 12, 11, 4, 0, 0, 0⟩, specNow) ∧
    (blockRL RateLimit.DAY).get_timeframe specNow =
      some (⟨2019, 12, 11, 0, 0, 0, 0⟩, specNow) ∧
    (blockRL RateLimit.WEEK).get_timeframe specNow =
      some (⟨2019, 12, 8, 0, 0, 0, 0⟩, specNow) ∧
    (blockRL RateLimit.MONTH).get_timeframe specNow =
      some (⟨2019, 12, 1, 0, 0, 0, 0⟩, specNow) ∧
    rollingHourRL.get_timeframe specNow =
      some (⟨2019, 12, 11, 3, 32, 45, 0⟩, specNow) := by
  decide

/-- C2: with grouping TOTAL, `check_service` admits a new message exactly
when the count of the service's messages created inside the window (bounds
inclusive) is strictly below `quantity`. -/
theorem check_service_total_admits_iff (rl : RateLimit) (msgs : List MessageRow)
    (user : Option UserRef) (groups : Option (List Nat))
    (now start stop : PyDateTime)
    (hg : rl.grouping = RateLimit.TOTAL)
    (ht : rl.get_timeframe now = some (start, stop)) :
    rl.check_service msgs user groups now =
      Except.ok (decide
        (((msgs.filter (fun m => start.le m.created && m.created.le stop)).length : Int)
          < rl.quantity)) := by
  unfold RateLimit.check_service
  rw [ht]
  simp [hg, RateLimit.TOTAL, RateLimit.PER_USER, RateLimit.PER_GROUP, Except.map]

/-- C2 witness: with quantity 2 and exactly 2 in-window messages a 3rd is
rejected; with 1 in-window message a 2nd is admitted. -/
theorem check_service_total_admits_iff_witness :
    (⟨0, 2, 1, 0, ⟨3600⟩⟩ : RateLimit).check_service
      [⟨⟨2019, 12, 11, 4, 0, 0, 0⟩, none⟩, ⟨⟨2019, 12, 11, 4, 10, 0, 0⟩, none⟩]
      none none specNow = Except.ok false ∧
    (⟨0, 2, 1, 0, ⟨3600⟩⟩ : RateLimit).check_service
      [⟨⟨2019, 12, 11, 4, 0, 0, 0⟩, none⟩]
      none none specNow = Except.ok true := by
  constructor
  · have h := check_service_total_admits_iff ⟨0, 2, 1, 0, ⟨3600⟩⟩
      [⟨⟨2019, 12, 11, 4, 0, 0, 0⟩, none⟩, ⟨⟨2019, 12, 11, 4, 10, 0, 0⟩, none⟩]
      none none specNow ⟨2019, 12, 11, 3, 32, 45, 0⟩ specNow rfl (by decide)
    rw [h]; decide
  · have h := check_service_total_admits_iff ⟨0, 2, 1, 0, ⟨3600⟩⟩
      [⟨⟨2019, 12, 11, 4, 0, 0, 0⟩, none⟩]
      none none specNow ⟨2019, 12, 11, 3, 32, 45, 0⟩ specNow rfl (by decide)
    rw [h]; decide

instance (t : PyDateTime) : Decidable t.valid := by
  unfold PyDateTime.valid; exact inferInstance

/-- C9 counterexample: two of the three valid grouping values fail.
`PER_USER` raises the grouping `ValueError` when no user is supplied
(`grouping == PER_USER and user` is falsy and every later `elif` misses),
and `PER_GROUP` with a nonempty group list raises `FieldError` (the
`user__groups` lookup traverses the `GenericForeignKey` `user`), so it is
not the case that every valid grouping value yields an admit/deny
boolean. -/
theorem check_service_valid_grouping_still_fails :
    (⟨RateLimit.PER_USER, 1, RateLimit.ROLLING_WINDOW, 0, ⟨3600⟩⟩ : RateLimit).check_service
      [] none none specNow = Except.error CheckError.groupingError ∧
    (⟨RateLimit.PER_GROUP, 1, RateLimit.ROLLING_WINDOW, 0, ⟨3600⟩⟩ : RateLimit).check_service
      [] none (some [1]) specNow = Except.error CheckError.fieldError := by
  decide

/-- C9 amended: given a successful timeframe, `check_service` returns an
admit/deny boolean exactly for grouping total, or per-user with a user
supplied; every other case raises — the configuration `ValueError` when the
grouping value is invalid, when it is per-user without a user, and when it
is per-group without a nonempty group list, and Django's `FieldError` when
it is per-group with a nonempty group list, because the `user__groups`
lookup cannot traverse the `GenericForeignKey` `user`. -/
theorem check_service_ok_characterization (rl : RateLimit) (msgs : List MessageRow)
    (user : Option UserRef) (groups : Option (List Nat)) (now start stop : PyDateTime)
    (ht : rl.get_timeframe now = some (start, stop)) :
    ((∃ b, rl.check_service msgs user groups now = Except.ok b) ↔
      (rl.grouping = RateLimit.TOTAL ∨
       (rl.grouping = RateLimit.PER_USER ∧ user ≠ none))) ∧
    (∀ gs, gs ≠ [] → rl.grouping = RateLimit.PER_GROUP →
      rl.check_service msgs user (some gs) now = Except.error CheckError.fieldError) := by
  constructor
  · unfold RateLimit.check_service
    rw [ht]
    simp only [RateLimit.PER_USER, RateLimit.PER_GROUP, RateLimit.TOTAL]
    by_cases h1 : rl.grouping = 1
    · cases user with
      | some u => simp [h1, Except.map]
      | none => simp [h1, Except.map]
    · by_cases h2 : rl.grouping = 2
      · cases groups with
        | some gs =>
          by_cases hgs : gs = []
          · simp [h1, h2, hgs, Except.map]
          · simp [h1, h2, hgs, Except.map]
        | none => simp [h1, h2, Except.map]
      · by_cases h3 : rl.grouping = 0
        · simp [h1, h2, h3, Except.map]
        · simp [h1, h2, h3, Except.map]
  · intro gs hgs hg2
    unfold RateLimit.check_service
    rw [ht]
    have h1 : ¬ rl.grouping = RateLimit.PER_USER := by rw [hg2]; decide
    simp [h1, hg2, hgs, RateLimit.PER_USER, RateLimit.PER_GROUP, Except.map]

/-- C9 witness: a TOTAL-grouping rate limit with a successful timeframe
returns a boolean, and a PER_GROUP one with a nonempty group list raises
`FieldError`. -/
theorem check_service_ok_characterization_witness :
    (∃ b, (⟨RateLimit.TOTAL, 1, RateLimit.ROLLING_WINDOW, 0, ⟨3600⟩⟩ : RateLimit).check_service
      [] none none specNow = Except.ok b) ∧
    (⟨RateLimit.PER_GROUP, 1, RateLimit.ROLLING_WINDOW, 0, ⟨3600⟩⟩ : RateLimit).check_service
      [] none (some [2]) specNow = Except.error CheckError.fieldError := by
  constructor
  · apply ((check_service_ok_characterization _ [] none none specNow
      ⟨2019, 12, 11, 3, 32, 45, 0⟩ specNow (by decide)).1).mpr
    left; rfl
  · exact (check_service_ok_characterization _ [] none (some [2]) specNow
      ⟨2019, 12, 11, 3, 32, 45, 0⟩ specNow (by decide)).2 [2] (by decide) rfl

/-- C10: for a valid `now` and block period WEEK or MONTH, `get_timeframe`
returns a window exactly when the day of month strictly exceeds the ISO
weekday number; otherwise `then.replace(day=then.day - then.isoweekday())`
computes a non-positive day and the call fails with `ValueError`. -/
theorem get_timeframe_week_month_domain (rl : RateLimit) (now : PyDateTime)
    (hv : now.valid) (hty : rl.type = RateLimit.BLOCK_PERIOD)
    (hbp : rl.block_period = RateLimit.WEEK ∨ rl.block_period = RateLimit.MONTH) :
    (rl.get_timeframe now).isSome ↔ now.isoweekday < now.day := by
  obtain ⟨-, -, -, hd1, hdm, -, -, -, -⟩ := hv
  unfold RateLimit.get_timeframe
  simp only [RateLimit.BLOCK_PERIOD, RateLimit.ROLLING_WINDOW, RateLimit.HOUR,
    RateLimit.DAY, RateLimit.WEEK, RateLimit.MONTH] at hty hbp ⊢
  rw [hty]
  have hiso : ∀ h mi s ms : Nat,
      (PyDateTime.mk now.year now.month now.day h mi s ms).isoweekday = now.isoweekday := by
    intro h mi s ms; rfl
  by_cases hlt : now.isoweekday < now.day
  · have hcond : 1 ≤ (now.day : Int) - (now.isoweekday : Int) ∧
        (now.day : Int) - (now.isoweekday : Int) ≤ (daysInMonth now.year now.month : Int) := by
      constructor <;> omega
    rcases hbp with hb | hb <;>
      simp [hb, PyDateTime.replaceDay, hiso, hcond, hlt, daysInMonth_pos,
        show (1:Int) ≤ (daysInMonth now.year now.month : Int) by
          exact_mod_cast daysInMonth_pos now.year now.month]
  · have hc1 : ¬ (1 ≤ (now.day : Int) - (now.isoweekday : Int)) := by omega
    rcases hbp with hb | hb <;> simp [hb, PyDateTime.replaceDay, hiso, hc1, hlt]

/-- C10 witness: 2019-12-11 (Wednesday, iso 3 < day 11) gets a WEEK window;
2019-12-01 (Sunday, iso 7 ≥ day 1) makes the WEEK computation fail. -/
theorem get_timeframe_week_month_domain_witness :
    ((blockRL RateLimit.WEEK).get_timeframe specNow).isSome ∧
    ¬ ((blockRL RateLimit.WEEK).get_timeframe ⟨2019, 12, 1, 4, 32, 45, 0⟩).isSome := by
  constructor
  · exact (get_timeframe_week_month_domain (blockRL RateLimit.WEEK) specNow (by decide)
      rfl (Or.inl rfl)).mpr (by decide)
  · have h := get_timeframe_week_month_domain (blockRL RateLimit.WEEK)
      ⟨2019, 12, 1, 4, 32, 45, 0⟩ (by decide) rfl (Or.inl rfl)
    rw [h]; decide

set_option linter.unusedSectionVars false

/-! ## `impression/models/distribution.py` -/

/-- The distribution table of the database: `n` `Distribution` rows, each
owning a finite set of direct email addresses (with identity type `α`, the
row identity that Python sets of `EmailAddress` instances deduplicate by)
and a list of child distributions (`self.distributions.all()` in its
iteration order). -/
structure DistGraph (n : Nat) (α : Type) where
  emails : Fin n → Finset α
  children : Fin n → List (Fin n)

variable {n : Nat} {α : Type} [DecidableEq α]

/-- The `for d in self.distributions.all()` loop of
`collect_email_addresses`: iterate the children with the shared
`already_collected` set (`vis`) threaded through the recursive calls, and
`r` the accumulated result set.  The recursive expansion of an unvisited
child is the function argument `go` (instantiated with `collectGo` at one
less fuel). -/
def collectList (g : DistGraph n α)
    (go : Finset (Fin n) → Fin n → Option (Finset (Fin n) × Finset α)) :
    List (Fin n) → Finset (Fin n) → Finset α → Option (Finset (Fin n) × Finset α)
  | [], vis, r => some (vis, r)
  | c :: rest, vis, r =>
    if c ∈ vis then collectList g go rest vis r
    else
      match go vis c with
      | none => none
      | some (v2, rc) => collectList g go rest v2 (r ∪ rc)

/-- One call of `Distribution.collect_email_addresses(already_collected)`
on node `d` with visited set `vis`: add `self` to the visited set, start
from the direct members, and fold the children through the shared set.
`fuel` bounds the recursion depth so the definition is structural; as the
Python recursion always adds an unvisited node to the set, fuel `n + 1`
never runs out (proved below), which models termination. -/
def collectGo (g : DistGraph n α) :
    Nat → Finset (Fin n) → Fin n → Option (Finset (Fin n) × Finset α)
  | 0, _, _ => none
  | f + 1, vis, d => collectList g (collectGo g f) (g.children d) (insert d vis) (g.emails d)

/-- `Distribution.collect_email_addresses()` with no visited set passed:
the source initialises `already_collected = set([self])`, which is the
`insert d ∅` that `collectGo` performs on entry. -/
def collect_email_addresses (g : DistGraph n α) (d : Fin n) : Option (Finset α) :=
  (collectGo g (n + 1) ∅ d).map Prod.snd

/-- Plain graph reachability along child edges. -/
inductive Reaches (g : DistGraph n α) : Fin n → Fin n → Prop
  | refl (d : Fin n) : Reaches g d d
  | step {a b c : Fin n} (hb : b ∈ g.children a) (h : Reaches g b c) : Reaches g a c

/-- Reachability along child edges through nodes that all avoid `V`
(endpoints included). -/
inductive NReach (g : DistGraph n α) (V : Finset (Fin n)) : Fin n → Fin n → Prop
  | refl (d : Fin n) (hd : d ∉ V) : NReach g V d d
  | step {a b c : Fin n} (ha : a ∉ V) (hb : b ∈ g.children a) (h : NReach g V b c) :
      NReach g V a c

theorem NReach.start_not_mem {g : DistGraph n α} {V : Finset (Fin n)} {s x : Fin n}
    (h : NReach g V s x) : s ∉ V := by
  cases h with
  | refl _ hd => exact hd
  | step ha _ _ => exact ha

theorem NReach.mono {g : DistGraph n α} {V W : Finset (Fin n)} {s x : Fin n}
    (hWV : W ⊆ V) (h : NReach g V s x) : NReach g W s x := by
  induction h with
  | refl d hd => exact NReach.refl d (fun hc => hd (hWV hc))
  | step ha hb _ ih => exact NReach.step (fun hc => ha (hWV hc)) hb ih

theorem NReach.snoc {g : DistGraph n α} {V : Finset (Fin n)} {s x y : Fin n}
    (h : NReach g V s x) (hy : y ∈ g.children x) (hyV : y ∉ V) : NReach g V s y := by
  induction h with
  | refl d hd => exact NReach.step hd hy (NReach.refl y hyV)
  | step ha hb _ ih => exact NReach.step ha hb (ih hy)

/-- Peeling a path from `s` against a distinguished node `d`: the target is
`d` itself, or the path avoids `d` entirely, or its suffix after the last
visit to `d` starts at a child of `d` and avoids `d`. -/
theorem NReach.split {g : DistGraph n α} {V : Finset (Fin n)} {s x : Fin n}
    (d : Fin n) (h : NReach g V s x) :
    x = d ∨ NReach g (insert d V) s x ∨
      ∃ c, c ∈ g.children d ∧ NReach g (insert d V) c x := by
  induction h with
  | refl s hs =>
    by_cases hsd : s = d
    · exact Or.inl hsd
    · exact Or.inr (Or.inl (NReach.refl s (by simp [hs, hsd])))
  | step ha hb h ih =>
    rcases ih with hx | hbx | hcx
    · exact Or.inl hx
    · rename_i a b x
      by_cases had : a = d
      · subst had
        exact Or.inr (Or.inr ⟨b, hb, hbx⟩)
      · exact Or.inr (Or.inl (NReach.step (by simp [ha, had]) hb hbx))
    · exact Or.inr (Or.inr hcx)

/-- Unfolding one level of avoided-set reachability from `d`. -/
theorem NReach.insert_iff {g : DistGraph n α} {V : Finset (Fin n)} {d x : Fin n}
    (hd : d ∉ V) :
    NReach g V d x ↔ x = d ∨ ∃ c, c ∈ g.children d ∧ NReach g (insert d V) c x := by
  constructor
  · intro h
    rcases NReach.split d h with hx | hdx | hcx
    · exact Or.inl hx
    · exact absurd (Finset.mem_insert_self d V) hdx.start_not_mem.elim
    · exact Or.inr hcx
  · intro h
    rcases h with hx | ⟨c, hc, hcx⟩
    · subst hx
      exact NReach.refl _ hd
    · exact NReach.step hd hc (hcx.mono (Finset.subset_insert d V))

/-- If `S` is closed under child edges avoiding `V`, a `V`-avoiding path
either ends inside `S` or avoids `V ∪ S` altogether. -/
theorem NReach.closure_or {g : DistGraph n α} {V S : Finset (Fin n)} {s x : Fin n}
    (hS : ∀ a b, a ∈ S → b ∈ g.children a → b ∉ V → b ∈ S)
    (h : NReach g V s x) : x ∈ S ∨ NReach g (V ∪ S) s x := by
  induction h with
  | refl s hs =>
    by_cases hsS : s ∈ S
    · exact Or.inl hsS
    · exact Or.inr (NReach.refl s (by simp [hs, hsS]))
  | step ha hb h ih =>
    rcases ih with hx | hbx
    · exact Or.inl hx
    · rename_i a b x
      by_cases haS : a ∈ S
      · have hbS : b ∈ S := hS a b haS hb h.start_not_mem
        exact absurd (Finset.mem_union_right V hbS) hbx.start_not_mem.elim
      · exact Or.inr (NReach.step (by simp [ha, haS]) hb hbx)

theorem reaches_iff_nreach_empty {g : DistGraph n α} {d x : Fin n} :
    Reaches g d x ↔ NReach g ∅ d x := by
  constructor
  · intro h
    induction h with
    | refl d => exact NReach.refl d (Finset.not_mem_empty d)
    | step hb _ ih => exact NReach.step (Finset.not_mem_empty _) hb ih
  · intro h
    induction h with
    | refl d _ => exact Reaches.refl d
    | step _ hb _ ih => exact Reaches.step hb ih

/-- The endpoint of an avoiding path is itself outside the avoided set. -/
theorem NReach.end_not_mem {g : DistGraph n α} {V : Finset (Fin n)} {s x : Fin n}
    (h : NReach g V s x) : x ∉ V := by
  induction h with
  | refl _ hd => exact hd
  | step _ _ _ ih => exact ih

/-- Specification of the child-iteration fold: assuming the recursive
expansion `go` is sound at the current fuel, the fold succeeds and its
visited set and result set are characterised by avoided-set reachability
from the listed children. -/
theorem collectList_sound (g : DistGraph n α) (F : Nat)
    (go : Finset (Fin n) → Fin n → Option (Finset (Fin n) × Finset α))
    (hgo : ∀ vis d, d ∉ vis → (Finset.univ \ vis).card ≤ F →
      ∃ v2 r, go vis d = some (v2, r) ∧
        (∀ x, x ∈ v2 ↔ x ∈ vis ∨ NReach g vis d x) ∧
        (∀ a, a ∈ r ↔ ∃ x, NReach g vis d x ∧ a ∈ g.emails x)) :
    ∀ (cs : List (Fin n)) (vis : Finset (Fin n)) (r0 : Finset α),
      (Finset.univ \ vis).card ≤ F →
      ∃ v2 r, collectList g go cs vis r0 = some (v2, r) ∧
        (∀ x, x ∈ v2 ↔ x ∈ vis ∨ ∃ c, c ∈ cs ∧ NReach g vis c x) ∧
        (∀ a, a ∈ r ↔ a ∈ r0 ∨ ∃ x, (∃ c, c ∈ cs ∧ NReach g vis c x) ∧ a ∈ g.emails x) := by
  intro cs
  induction cs with
  | nil =>
    intro vis r0 hF
    exact ⟨vis, r0, rfl, by simp, by simp⟩
  | cons c rest ih =>
    intro vis r0 hF
    by_cases hc : c ∈ vis
    · obtain ⟨v2, r, heq, hv2, hr⟩ := ih vis r0 hF
      refine ⟨v2, r, by simpa [collectList, hc] using heq, ?_, ?_⟩
      · intro x
        rw [hv2 x]
        constructor
        · rintro (h | ⟨c', hc', hcx⟩)
          · exact Or.inl h
          · exact Or.inr ⟨c', List.mem_cons_of_mem c hc', hcx⟩
        · rintro (h | ⟨c', hc', hcx⟩)
          · exact Or.inl h
          · rcases List.mem_cons.mp hc' with hh | hh
            · subst hh
              exact absurd hc hcx.start_not_mem.elim
            · exact Or.inr ⟨c', hh, hcx⟩
      · intro a
        rw [hr a]
        constructor
        · rintro (h | ⟨x, ⟨c', hc', hcx⟩, hax⟩)
          · exact Or.inl h
          · exact Or.inr ⟨x, ⟨c', List.mem_cons_of_mem c hc', hcx⟩, hax⟩
        · rintro (h | ⟨x, ⟨c', hc', hcx⟩, hax⟩)
          · exact Or.inl h
          · rcases List.mem_cons.mp hc' with hh | hh
            · subst hh
              exact absurd hc hcx.start_not_mem.elim
            · exact Or.inr ⟨x, ⟨c', hh, hcx⟩, hax⟩
    · obtain ⟨v1, rc, hgoeq, hv1, hrc⟩ := hgo vis c hc hF
      have hsub : vis ⊆ v1 := fun x hx => (hv1 x).mpr (Or.inl hx)
      have hF1 : (Finset.univ \ v1).card ≤ F :=
        le_trans (Finset.card_le_card
          (Finset.sdiff_subset_sdiff (Finset.Subset.refl _) hsub)) hF
      obtain ⟨v2, r, heq, hv2, hr⟩ := ih v1 (r0 ∪ rc) hF1
      have hclosed : ∀ a b, a ∈ v1 \ vis → b ∈ g.children a → b ∉ vis → b ∈ v1 \ vis := by
        intro a b ha hb hbvis
        rw [Finset.mem_sdiff] at ha
        have hna : NReach g vis c a := ((hv1 a).mp ha.1).resolve_left ha.2
        exact Finset.mem_sdiff.mpr ⟨(hv1 b).mpr (Or.inr (hna.snoc hb hbvis)), hbvis⟩
      have hkey : ∀ c' x, NReach g vis c' x → x ∈ v1 ∨ NReach g v1 c' x := by
        intro c' x h
        rcases NReach.closure_or hclosed h with hx | hx
        · exact Or.inl (Finset.mem_sdiff.mp hx).1
        · rw [Finset.union_sdiff_of_subset hsub] at hx
          exact Or.inr hx
      refine ⟨v2, r, by simpa [collectList, hc, hgoeq] using heq, ?_, ?_⟩
      · intro x
        rw [hv2 x]
        constructor
        · rintro (hx | ⟨c', hc', hcx⟩)
          · rcases (hv1 x).mp hx with h | h
            · exact Or.inl h
            · exact Or.inr ⟨c, List.mem_cons_self c rest, h⟩
          · exact Or.inr ⟨c', List.mem_cons_of_mem c hc', hcx.mono hsub⟩
        · rintro (hx | ⟨c', hc', hcx⟩)
          · exact Or.inl (hsub hx)
          · rcases List.mem_cons.mp hc' with hh | hh
            · subst hh
              exact Or.inl ((hv1 x).mpr (Or.inr hcx))
            · rcases hkey c' x hcx with h | h
              · exact Or.inl h
              · exact Or.inr ⟨c', hh, h⟩
      · intro a
        rw [hr a]
        constructor
        · rintro (ha | ⟨x, ⟨c', hc', hcx⟩, hax⟩)
          · rcases Finset.mem_union.mp ha with h | h
            · exact Or.inl h
            · obtain ⟨x, hx, hax⟩ := (hrc a).mp h
              exact Or.inr ⟨x, ⟨c, List.mem_cons_self c rest, hx⟩, hax⟩
          · exact Or.inr ⟨x, ⟨c', List.mem_cons_of_mem c hc', hcx.mono hsub⟩, hax⟩
        · rintro (ha | ⟨x, ⟨c', hc', hcx⟩, hax⟩)
          · exact Or.inl (Finset.mem_union_left _ ha)
          · rcases List.mem_cons.mp hc' with hh | hh
            · subst hh
              exact Or.inl (Finset.mem_union_right _ ((hrc a).mpr ⟨x, hcx, hax⟩))
            · rcases hkey c' x hcx with h | h
              · have hxv : ¬ x ∈ vis := hcx.end_not_mem
                have hnx : NReach g vis c x := ((hv1 x).mp h).resolve_left hxv
                exact Or.inl (Finset.mem_union_right _ ((hrc a).mpr ⟨x, hnx, hax⟩))
              · exact Or.inr ⟨x, ⟨c', hh, h⟩, hax⟩

/-- Specification of one `collect_email_addresses` call: with enough fuel
(`|univ \ vis| ≤ f`) on an unvisited node, it succeeds; the final visited
set adds exactly the nodes reachable from `d` avoiding `vis`, and the
result collects exactly the addresses of those nodes. -/
theorem collectGo_sound (g : DistGraph n α) :
    ∀ (f : Nat) (vis : Finset (Fin n)) (d : Fin n), d ∉ vis →
      (Finset.univ \ vis).card ≤ f →
      ∃ v2 r, collectGo g f vis d = some (v2, r) ∧
        (∀ x, x ∈ v2 ↔ x ∈ vis ∨ NReach g vis d x) ∧
        (∀ a, a ∈ r ↔ ∃ x, NReach g vis d x ∧ a ∈ g.emails x) := by
  intro f
  induction f with
  | zero =>
    intro vis d hd hF
    exfalso
    have hmem : d ∈ Finset.univ \ vis := Finset.mem_sdiff.mpr ⟨Finset.mem_univ d, hd⟩
    have hpos := Finset.card_pos.mpr ⟨d, hmem⟩
    omega
  | succ f ihf =>
    intro vis d hd hF
    have hcard : (Finset.univ \ insert d vis).card ≤ f := by
      have h1 : Finset.univ \ insert d vis = (Finset.univ \ vis).erase d := by
        ext x
        simp only [Finset.mem_sdiff, Finset.mem_erase, Finset.mem_insert, Finset.mem_univ,
          true_and, not_or]
      have hdmem : d ∈ Finset.univ \ vis := Finset.mem_sdiff.mpr ⟨Finset.mem_univ d, hd⟩
      rw [h1, Finset.card_erase_of_mem hdmem]
      omega
    obtain ⟨v2, r, heq, hv2, hr⟩ :=
      collectList_sound g f (collectGo g f) ihf (g.children d) (insert d vis)
        (g.emails d) hcard
    refine ⟨v2, r, heq, ?_, ?_⟩
    · intro x
      rw [hv2 x]
      constructor
      · rintro (hx | ⟨c, hc, hcx⟩)
        · rcases Finset.mem_insert.mp hx with hh | hh
          · subst hh
            exact Or.inr (NReach.refl x hd)
          · exact Or.inl hh
        · exact Or.inr (NReach.step hd hc (hcx.mono (Finset.subset_insert d vis)))
      · rintro (hx | hx)
        · exact Or.inl (Finset.mem_insert_of_mem hx)
        · rcases (NReach.insert_iff hd).mp hx with hxd | ⟨c, hc, hcx⟩
          · subst hxd
            exact Or.inl (Finset.mem_insert_self x vis)
          · exact Or.inr ⟨c, hc, hcx⟩
    · intro a
      rw [hr a]
      constructor
      · rintro (had | ⟨x, ⟨c, hc, hcx⟩, hax⟩)
        · exact ⟨d, NReach.refl d hd, had⟩
        · exact ⟨x, NReach.step hd hc (hcx.mono (Finset.subset_insert d vis)), hax⟩
      · rintro ⟨x, hx, hax⟩
        rcases (NReach.insert_iff hd).mp hx with hxd | ⟨c, hc, hcx⟩
        · subst hxd
          exact Or.inl hax
        · exact Or.inr ⟨x, ⟨c, hc, hcx⟩, hax⟩

/-- The two-node cyclic graph of the claim: node 0 (A) owns address 1 (t1)
and child 1 (B); node 1 owns address 2 (t2) and child 0. -/
def exampleGraph : DistGraph 2 Nat :=
  ⟨fun i => if i = 0 then {1} else {2}, fun i => if i = 0 then [1] else [0]⟩

/-- C1: for every distribution graph — self-loops and mutual cycles
included — `collect_email_addresses` called with no visited set succeeds
(terminates within its fuel) and returns exactly the email addresses of the
nodes reachable from the start node, each address once (the result is a
set keyed by address identity); and on the concrete two-node cycle where
distribution A holds address 1 and child B, and B holds address 2 and child
A, expanding either node yields `{1, 2}`. -/
theorem collect_email_addresses_reachable :
    (∀ (n : Nat) (α : Type) [DecidableEq α] (g : DistGraph n α) (d : Fin n),
       ∃ res, collect_email_addresses g d = some res ∧
         ∀ a, a ∈ res ↔ ∃ x, Reaches g d x ∧ a ∈ g.emails x) ∧
    collect_email_addresses exampleGraph 0 = some {1, 2} ∧
    collect_email_addresses exampleGraph 1 = some {1, 2} := by
  refine ⟨?_, by rfl, ?_⟩
  swap
  · have h : collect_email_addresses exampleGraph 1 = some {2, 1} := rfl
    rw [h]
    congr 1
    ext a
    simp [or_comm]
  intro n α inst g d
  have hcard : (Finset.univ \ (∅ : Finset (Fin n))).card ≤ n + 1 := by
    simp [Finset.sdiff_empty, Finset.card_univ]
  obtain ⟨v2, r, heq, hv2, hr⟩ :=
    collectGo_sound g (n + 1) ∅ d (Finset.not_mem_empty d) hcard
  refine ⟨r, ?_, ?_⟩
  · unfold collect_email_addresses
    rw [heq]
    rfl
  · intro a
    rw [hr a]
    simp only [reaches_iff_nreach_empty]

/-! ## `impression/models/email_address.py` and `impression/models/service.py` -/

/-- An `EmailAddress` row: a pk identity, the global unsubscribe flag, and
the pks of the services it is explicitly unsubscribed from
(`service_unsubscriptions`). -/
structure EmailAddress where
  id : Nat
  unsubscribed_from_all : Bool
  service_unsubscriptions : List Nat
deriving DecidableEq

/-- A `Service` row, over a database whose distribution table is a
`DistGraph n`.  `json_body_policy` is the `CharField` with choices
`"forbid"`, `"permit"`, `"require"`. -/
structure Service (n : Nat) where
  pk : Nat
  is_unsubscribable : Bool
  allow_extra_target_email_addresses : Bool
  json_body_policy : String
  rate_limit : Option RateLimit
  allowed_groups : List Nat
  to_email_addresses : Finset EmailAddress
  cc_email_addresses : Finset EmailAddress
  bcc_email_addresses : Finset EmailAddress
  to_distributions : List (Fin n)
  cc_distributions : List (Fin n)
  bcc_distributions : List (Fin n)

def Service.FORBID : String := "forbid"
def Service.PERMIT : String := "permit"
def Service.REQUIRE : String := "require"

/-- `EmailAddress.is_unsubscribed_from(service)`: the global flag OR
membership of the service in `service_unsubscriptions` (Django compares the
model instances by pk). -/
def EmailAddress.is_unsubscribed_from {n : Nat} (e : EmailAddress) (s : Service n) : Bool :=
  e.unsubscribed_from_all || decide (s.pk ∈ e.service_unsubscriptions)

/-- `Service.filter_unsubscribed(email_set)`.  When `is_unsubscribable` is
set, the source returns the filtered comprehension; otherwise it executes
`return emails`, and `emails` is an undefined name (the parameter is called
`email_set`), so the call raises `NameError` — modelled as `none`. -/
def Service.filter_unsubscribed {n : Nat} (s : Service n)
    (email_set : Finset EmailAddress) : Option (Finset EmailAddress) :=
  if s.is_unsubscribable then
    some (email_set.filter (fun e => ¬ e.is_unsubscribed_from s))
  else none

/-- `Service._collect_email_addresses_by_kind(kind)`: start from the direct
address set of the kind and union in the expansion of each configured
distribution of that kind; each distribution is expanded by a fresh
top-level `collect_email_addresses()` call. -/
def Service.collect_by_kind {n : Nat} (g : DistGraph n EmailAddress)
    (direct : Finset EmailAddress) (ds : List (Fin n)) : Option (Finset EmailAddress) :=
  ds.foldlM (fun s d => (collect_email_addresses g d).map (fun r => s ∪ r)) direct

/-- `Service.collect_email_addresses()`: the `(to, cc, bcc)` triple of
distribution-expanded address sets. -/
def Service.collect_email_addresses {n : Nat} (g : DistGraph n EmailAddress)
    (svc : Service n) :
    Option (Finset EmailAddress × Finset EmailAddress × Finset EmailAddress) := do
  let tos ← Service.collect_by_kind g svc.to_email_addresses svc.to_distributions
  let ccs ← Service.collect_by_kind g svc.cc_email_addresses svc.cc_distributions
  let bccs ← Service.collect_by_kind g svc.bcc_email_addresses svc.bcc_distributions
  return (tos, ccs, bccs)

/-- The extra to/cc/bcc address sets of a `Message` row. -/
structure MessageExtras where
  extra_to_email_addresses : Finset EmailAddress
  extra_cc_email_addresses : Finset EmailAddress
  extra_bcc_email_addresses : Finset EmailAddress

/-- `Message._get_final_emails_by_kind(initial_set, kind)`: union the
service-derived set with the message's extra addresses of that kind
(unconditionally — the source never consults
`allow_extra_target_email_addresses`), then filter the unsubscribed. -/
def Message.get_final_emails_by_kind {n : Nat} (svc : Service n)
    (initial_set : Finset EmailAddress) (extra : Finset EmailAddress) :
    Option (Finset EmailAddress) :=
  svc.filter_unsubscribed (initial_set ∪ extra)

/-- `Message.get_final_emails()`: per-kind finalisation of the service
address sets with the message extras. -/
def Message.get_final_emails {n : Nat} (g : DistGraph n EmailAddress)
    (svc : Service n) (m : MessageExtras) :
    Option (Finset EmailAddress × Finset EmailAddress × Finset EmailAddress) := do
  let (tos, ccs, bccs) ← Service.collect_email_addresses g svc
  let fto ← Message.get_final_emails_by_kind svc tos m.extra_to_email_addresses
  let fcc ← Message.get_final_emails_by_kind svc ccs m.extra_cc_email_addresses
  let fbcc ← Message.get_final_emails_by_kind svc bccs m.extra_bcc_email_addresses
  return (fto, fcc, fbcc)

/-- A distribution table with no rows. -/
def gEmpty : DistGraph 0 EmailAddress := ⟨fun i => i.elim0, fun i => i.elim0⟩

/-- A subscribed address of pk 1. -/
def ea1 : EmailAddress := ⟨1, false, []⟩

/-- A subscribed address of pk 2. -/
def ea2 : EmailAddress := ⟨2, false, []⟩

/-- A service with `allow_extra_target_email_addresses = false`,
`is_unsubscribable = true`, and `{ea1}` as its direct to-set. -/
def svcNoExtra : Service 0 := ⟨10, true, false, "forbid", none, [], {ea1}, ∅, ∅, [], [], []⟩

/-- A service with `is_unsubscribable = false` (the transactional
override). -/
def svcTransactional : Service 0 := ⟨11, false, false, "forbid", none, [], ∅, ∅, ∅, [], [], []⟩

/-- C4 (code bug): for a service with `is_unsubscribable = false`,
`filter_unsubscribed` does not return the set unchanged as the spec and the
method's own docstring state: it evaluates the undefined name `emails`
(the parameter is `email_set`) and raises `NameError`. -/
theorem filter_unsubscribed_name_error :
    svcTransactional.is_unsubscribable = false ∧
    svcTransactional.filter_unsubscribed {ea1} = none := ⟨rfl, rfl⟩

/-- C5 (code bug): with `allow_extra_target_email_addresses = false`, the
message's extra to-address `ea2` still reaches the final to-set:
`_get_final_emails_by_kind` unions the extras unconditionally, contradicting
the flag's documented meaning ("or if we should ignore them and just use the
service email configuration"). -/
theorem get_final_emails_ignores_extra_flag :
    svcNoExtra.allow_extra_target_email_addresses = false ∧
    ∃ p, Message.get_final_emails gEmpty svcNoExtra ⟨{ea2}, ∅, ∅⟩ = some p ∧ ea2 ∈ p.1 :=
  ⟨rfl, ⟨_, rfl, by decide⟩⟩

/-! ## `impression/models/message.py`: JSON body policy and delivery -/

/-- A parsed JSON document, as returned by CPython's `json.loads` (numeric
detail is irrelevant to the claims and collapsed to `Int`). -/
inductive JsonValue
  | null
  | bool (b : Bool)
  | num (q : Int)
  | str (s : String)
  | arr (xs : List JsonValue)
  | obj (kvs : List (String × JsonValue))

/-- Outcome of `{}.update(x)` in CPython. -/
inductive UpdateResult
  | ok
  | typeError
  | valueError
deriving DecidableEq

/-- How one element of an update sequence fares in `dict.update`: it must be
a sequence of length 2 whose first component is hashable.  A JSON object
iterates as its keys; a string iterates as its characters; null, booleans
and numbers are not iterable (`TypeError`); a wrong length raises
`ValueError`; an unhashable key (list or dict) raises `TypeError`. -/
def pairResult : JsonValue → UpdateResult
  | JsonValue.obj kvs => if kvs.length = 2 then UpdateResult.ok else UpdateResult.valueError
  | JsonValue.arr ys =>
      if ys.length = 2 then
        match ys.head? with
        | some (JsonValue.arr _) => UpdateResult.typeError
        | some (JsonValue.obj _) => UpdateResult.typeError
        | _ => UpdateResult.ok
      else UpdateResult.valueError
  | JsonValue.str s => if s.length = 2 then UpdateResult.ok else UpdateResult.valueError
  | _ => UpdateResult.typeError

/-- `dict.update` stops at the first failing element. -/
def seqUpdate : List JsonValue → UpdateResult
  | [] => UpdateResult.ok
  | e :: rest =>
    match pairResult e with
    | UpdateResult.ok => seqUpdate rest
    | r => r

/-- `{}.update(v)` for a parsed JSON value `v`: a JSON object always merges;
an array merges iff its elements form key/value pairs; a string iterates as
length-1 characters, so only the empty string merges (a nonempty one raises
`ValueError`); anything else is not iterable (`TypeError`). -/
def dictUpdate : JsonValue → UpdateResult
  | JsonValue.obj _ => UpdateResult.ok
  | JsonValue.arr xs => seqUpdate xs
  | JsonValue.str s => if s = "" then UpdateResult.ok else UpdateResult.valueError
  | _ => UpdateResult.typeError

/-- Errors escaping `Message._pre_create_check` / `Message.save` /
`Message.send`. -/
inductive CreateError
  /-- `RateLimitException` -/
  | rateLimitException
  /-- `JSONBodyRequired` -/
  | jsonBodyRequired
  /-- the grouping `ValueError` of `check_service` -/
  | groupingValueError
  /-- the per-group `FieldError` of `check_service` -/
  | fieldError
  /-- an exception escaping `get_timeframe` -/
  | timeframeError
  /-- the `ValueError` for an invalid `json_body_policy` -/
  | policyValueError
  /-- the uncaught `ValueError` raised by `dict.update` on a malformed
  update sequence (only `JSONDecodeError` and `TypeError` are caught) -/
  | updateValueError
  /-- `NameError` from `Service.filter_unsubscribed` -/
  | nameError
  /-- Python recursion limit; never reached with adequate fuel -/
  | recursionLimit
deriving DecidableEq

/-- The JSON-policy part of `Message._pre_create_check`.  `parsed` is the
outcome of `json.loads(self.body)` (`none` = `JSONDecodeError`); the check
does `body = {}; body.update(json.loads(self.body))` and turns
`JSONDecodeError` and `TypeError` into `JSONBodyRequired`, while a
`ValueError` from `update` propagates unchanged. -/
def jsonBodyCheck (policy : String) (parsed : Option JsonValue) : Except CreateError Unit :=
  if policy = Service.FORBID ∨ policy = Service.PERMIT then Except.ok ()
  else if policy = Service.REQUIRE then
    match parsed with
    | none => Except.error CreateError.jsonBodyRequired
    | some v =>
      match dictUpdate v with
      | UpdateResult.ok => Except.ok ()
      | UpdateResult.typeError => Except.error CreateError.jsonBodyRequired
      | UpdateResult.valueError => Except.error CreateError.updateValueError
  else Except.error CreateError.policyValueError

/-- `Service.check_rate_limit(user, groups)`: `True` when no rate limit is
configured, else delegate to `RateLimit.check_service`. -/
def Service.check_rate_limit {n : Nat} (svc : Service n) (msgs : List MessageRow)
    (user : Option UserRef) (groups : Option (List Nat)) (now : PyDateTime) :
    Except CheckError Bool :=
  match svc.rate_limit with
  | none => Except.ok true
  | some _ =>
    match svc.rate_limit with
    | none => Except.ok true
    | some rl => rl.check_service msgs user groups now

/-- `Message._pre_create_check()`: the rate-limit admission (with
`groups = user.groups & service.allowed_groups` when a user is attached,
`None` otherwise), then the JSON-body-policy check.  `msgs` are the
service's message rows and `now` the clock, as in `check_service`. -/
def Message._pre_create_check {n : Nat} (svc : Service n) (msgs : List MessageRow)
    (user : Option UserRef) (now : PyDateTime) (parsed : Option JsonValue) :
    Except CreateError Unit :=
  let rateStep : Except CreateError Unit :=
    if svc.rate_limit.isSome then
      let groups := user.map (fun u => u.groups.filter (fun gp => decide (gp ∈ svc.allowed_groups)))
      match svc.check_rate_limit msgs user groups now with
      | Except.error CheckError.timeframeError => Except.error CreateError.timeframeError
      | Except.error CheckError.groupingError => Except.error CreateError.groupingValueError
      | Except.error CheckError.fieldError => Except.error CreateError.fieldError
      | Except.ok true => Except.ok ()
      | Except.ok false => Except.error CreateError.rateLimitException
    else Except.ok ()
  match rateStep with
  | Except.error e => Except.error e
  | Except.ok () => jsonBodyCheck svc.json_body_policy parsed

/-- The mutable state of a `Message` row touched by `save`/`send`. -/
structure MessageState (n : Nat) where
  pk : Option Nat
  ready_to_send : Bool
  sent : Option PyDateTime
  last_attempt : Option PyDateTime
  extras : MessageExtras
  final_subject : String
  final_body_plaintext : String
  final_body_html : String
  final_from_email_address : Option EmailAddress
  final_to_email_addresses : Finset EmailAddress
  final_cc_email_addresses : Finset EmailAddress
  final_bcc_email_addresses : Finset EmailAddress

/-- The external collaborators `send` consults, held fixed during one
operation: the clock, the boolean success of the one outbound transport
call (`email.send()` on the configured backend), the template rendering
(`self.render()`, the template engine), the resolved sender
(`self.get_from_email()`), and the pk the database assigns on insert. -/
structure SendEnv where
  now : PyDateTime
  transportOk : Bool
  renderedSubject : String
  renderedPlain : String
  renderedHtml : String
  fromAddr : EmailAddress
  newPk : Nat

/-- `Message.send()`, parametric in the `self.save()` it performs at the
end (instantiated below with `Message.save` at one less fuel): render, build
the final recipient sets (`get_final_emails`, which raises `NameError` for a
non-unsubscribable service), stamp `last_attempt`, make exactly one
transport call, on success stamp `sent` and write the `final_*` snapshot,
then save.  The second component of the result counts the transport calls
performed, this call's one included. -/
def Message.sendWith {n : Nat} (g : DistGraph n EmailAddress) (svc : Service n)
    (env : SendEnv)
    (saveFn : MessageState n → Except CreateError (MessageState n × Nat))
    (m : MessageState n) : Except CreateError (MessageState n × Nat) :=
  match Message.get_final_emails g svc m.extras with
  | none => Except.error CreateError.nameError
  | some (tos, ccs, bccs) =>
    let m1 : MessageState n := { m with last_attempt := some env.now }
    let m2 : MessageState n :=
      if env.transportOk then
        { m1 with
          sent := some env.now
          final_from_email_address := some env.fromAddr
          final_to_email_addresses := tos
          final_cc_email_addresses := ccs
          final_bcc_email_addresses := bccs
          final_subject := env.renderedSubject
          final_body_plaintext := env.renderedPlain
          final_body_html := env.renderedHtml }
      else m1
    match saveFn m2 with
    | Except.error e => Except.error e
    | Except.ok (m3, k) => Except.ok (m3, k + 1)

/-- `Message.save()`: run `_pre_create_check` when the row is new
(`pk is None`), persist (`super().save()`, which assigns a pk on insert),
and trigger one send attempt when the row is ready, unsent and not yet
attempted.  `send` ends with another `self.save()`, so the definition
recurses on a fuel; in Python the recursion stops because `send` sets
`last_attempt` (proved below), so any fuel ≥ 2 is enough and running out
models only the interpreter's recursion limit. -/
def Message.save {n : Nat} (g : DistGraph n EmailAddress) (svc : Service n)
    (env : SendEnv) (msgs : List MessageRow) (user : Option UserRef)
    (parsed : Option JsonValue) :
    Nat → MessageState n → Except CreateError (MessageState n × Nat)
  | 0, _ => Except.error CreateError.recursionLimit
  | fuel + 1, m =>
    let preStep : Except CreateError Unit :=
      if m.pk = none then Message._pre_create_check svc msgs user env.now parsed
      else Except.ok ()
    match preStep with
    | Except.error e => Except.error e
    | Except.ok () =>
      let m1 : MessageState n := { m with pk := some (m.pk.getD env.newPk) }
      if m1.ready_to_send = true ∧ m1.sent = none ∧ m1.last_attempt = none then
        Message.sendWith g svc env (Message.save g svc env msgs user parsed fuel) m1
      else Except.ok (m1, 0)

/-- A service with `json_body_policy = "require"` and no rate limit. -/
def svcRequire : Service 0 := ⟨12, true, false, "require", none, [], ∅, ∅, ∅, [], [], []⟩

/-- A concrete collaborator environment. -/
def envW : SendEnv := ⟨specNow, true, "", "", "", ea1, 1⟩

/-- A fresh, unpersisted message (`pk is None`). -/
def msgNew : MessageState 0 := ⟨none, false, none, none, ⟨∅, ∅, ∅⟩, "", "", "", none, ∅, ∅, ∅⟩

/-- A persisted message whose send was already attempted
(`last_attempt` set, `sent` still null: the terminal failed state). -/
def msgAttempted : MessageState 0 :=
  ⟨some 5, true, none, some specNow, ⟨∅, ∅, ∅⟩, "s", "p", "h", none, ∅, ∅, ∅⟩

/-- C6 counterexample: under the `require` policy, the body `[]` is valid
JSON and is not a JSON object, yet `_pre_create_check` raises nothing:
`{}.update([])` succeeds, so the claimed "raises iff not valid JSON or not
a JSON object" fails. -/
theorem pre_create_check_admits_nonobject_json :
    Message._pre_create_check svcRequire [] none specNow (some (JsonValue.arr [])) =
      Except.ok () ∧
    ∀ kvs, JsonValue.arr [] ≠ JsonValue.obj kvs :=
  ⟨rfl, fun _ h => JsonValue.noConfusion h⟩

/-- C6 amended: under the `require` policy the check raises "JSON body
required" iff the body fails to parse or the parsed value makes
`dict.update` raise `TypeError`: every JSON object passes, parse failures
and non-iterable JSON (null/booleans/numbers) raise `JSONBodyRequired`, but
arrays forming key/value-pair sequences (e.g. `[]`) pass and nonempty JSON
strings escape with an uncaught `ValueError`; and any such rejection of a
fresh message happens inside `save` before the row is persisted (the whole
`save` fails, producing no state). -/
theorem pre_create_check_require_spec :
    (∀ kvs, jsonBodyCheck Service.REQUIRE (some (JsonValue.obj kvs)) = Except.ok ()) ∧
    (jsonBodyCheck Service.REQUIRE none = Except.error CreateError.jsonBodyRequired) ∧
    (jsonBodyCheck Service.REQUIRE (some JsonValue.null) =
      Except.error CreateError.jsonBodyRequired) ∧
    (∀ b, jsonBodyCheck Service.REQUIRE (some (JsonValue.bool b)) =
      Except.error CreateError.jsonBodyRequired) ∧
    (∀ q, jsonBodyCheck Service.REQUIRE (some (JsonValue.num q)) =
      Except.error CreateError.jsonBodyRequired) ∧
    (∀ s, s ≠ "" → jsonBodyCheck Service.REQUIRE (some (JsonValue.str s)) =
      Except.error CreateError.updateValueError) ∧
    (∀ v, jsonBodyCheck Service.REQUIRE (some v) = Except.error CreateError.jsonBodyRequired ↔
      dictUpdate v = UpdateResult.typeError) ∧
    (∀ (nn : Nat) (g : DistGraph nn EmailAddress) (svc : Service nn) (env : SendEnv)
       (msgs : List MessageRow) (user : Option UserRef) (parsed : Option JsonValue)
       (fuel : Nat) (m : MessageState nn),
       m.pk = none → svc.rate_limit = none →
       jsonBodyCheck svc.json_body_policy parsed = Except.error CreateError.jsonBodyRequired →
       Message.save g svc env msgs user parsed (fuel + 1) m =
         Except.error CreateError.jsonBodyRequired) := by
  refine ⟨fun kvs => rfl, rfl, rfl, fun b => rfl, fun q => rfl, ?_, ?_, ?_⟩
  · intro s hs
    simp [jsonBodyCheck, dictUpdate, Service.REQUIRE, Service.FORBID, Service.PERMIT, hs]
  · intro v
    have hv : jsonBodyCheck Service.REQUIRE (some v) =
        (match dictUpdate v with
         | UpdateResult.ok => Except.ok ()
         | UpdateResult.typeError => Except.error CreateError.jsonBodyRequired
         | UpdateResult.valueError => Except.error CreateError.updateValueError) := rfl
    rw [hv]
    rcases h : dictUpdate v <;> simp [h]
  · intro nn g svc env msgs user parsed fuel m hpk hrl hjson
    simp [Message.save, Message._pre_create_check, hpk, hrl, hjson]

/-- C6 witness: the nonempty-string case at `"ab"`, and a fresh message
with unparsable body rejected by `save` before persistence. -/
theorem pre_create_check_require_spec_witness :
    jsonBodyCheck Service.REQUIRE (some (JsonValue.str "ab")) =
      Except.error CreateError.updateValueError ∧
    Message.save gEmpty svcRequire envW [] none none 1 msgNew =
      Except.error CreateError.jsonBodyRequired := by
  constructor
  · exact pre_create_check_require_spec.2.2.2.2.2.1 "ab" (by decide)
  · exact pre_create_check_require_spec.2.2.2.2.2.2.2 0 gEmpty svcRequire envW [] none
      none 0 msgNew rfl rfl rfl

/-- C7: saving a persisted message whose `last_attempt` is already set
performs no transport call (count 0) and returns the state — every
`final_*` field included — unchanged: the send attempt is triggered only
while `last_attempt` is still null.  (`Message.send` itself carries no
guard; it is reached through `save`, and the external re-drive job is
expected to call it directly to retry a failed message.) -/
theorem save_no_resend_after_attempt {nn : Nat} (g : DistGraph nn EmailAddress)
    (svc : Service nn) (env : SendEnv) (msgs : List MessageRow) (user : Option UserRef)
    (parsed : Option JsonValue) (fuel : Nat) (m : MessageState nn) (k : Nat)
    (hpk : m.pk = some k) (hla : m.last_attempt ≠ none) :
    Message.save g svc env msgs user parsed (fuel + 1) m = Except.ok (m, 0) := by
  obtain ⟨pk, rts, snt, la, ex, f1, f2, f3, f4, f5, f6, f7⟩ := m
  simp only at hpk hla
  subst hpk
  simp [Message.save, hla]

/-- C7 witness: a concrete already-attempted message is saved with zero
transport calls and an unchanged state. -/
theorem save_no_resend_after_attempt_witness :
    Message.save gEmpty svcNoExtra envW [] none none 2 msgAttempted =
      Except.ok (msgAttempted, 0) :=
  save_no_resend_after_attempt gEmpty svcNoExtra envW [] none none 1 msgAttempted 5
    rfl (by simp [msgAttempted])

/-! ## `impression_send_emails` management command -/

/-- The field names of the `Message` model class (every Django field
declared in `impression/models/message.py`, plus the implicit `id`): the
names a query keyword must resolve to. -/
def messageFieldNames : List String :=
  ["id", "service", "user_type", "user_id", "subject", "body",
   "override_from_email_address", "extra_to_email_addresses",
   "extra_cc_email_addresses", "extra_bcc_email_addresses",
   "created", "updated", "ready_to_send", "sent", "last_attempt",
   "final_subject", "final_body_plaintext", "final_body_html",
   "final_from_email_address", "final_to_email_addresses",
   "final_cc_email_addresses", "final_bcc_email_addresses"]

/-- Characters of a lookup keyword up to the first `"__"` separator. -/
def lookupBaseChars : List Char → List Char
  | [] => []
  | '_' :: '_' :: _ => []
  | c :: rest => c :: lookupBaseChars rest

/-- The leading field name of a Django lookup keyword: Django splits the
keyword on `"__"` and resolves the head against the model's fields
(`"send__isnull"` → `"send"`, `"read_to_send"` → `"read_to_send"`). -/
def lookupBase (k : String) : String := String.mk (lookupBaseChars k.data)

/-- The projection of a `Message` row onto the columns the re-drive query
logic touches. -/
structure MsgQueryRow where
  pk : Nat
  ready_to_send : Bool
  sent : Option PyDateTime
  last_attempt : Option PyDateTime
deriving DecidableEq

/-- Evaluation of one already-resolved query keyword against a row
(conditions on columns outside the projection do not occur in the code
under test). -/
def evalKnown (r : MsgQueryRow) (k : String) (v : Bool) : Bool :=
  if k = "ready_to_send" then r.ready_to_send == v
  else if k = "sent__isnull" then r.sent.isNone == v
  else if k = "last_attempt__isnull" then r.last_attempt.isNone == v
  else true

/-- `Message.objects.filter(Q(**kwargs))`: Django resolves every keyword's
leading field name against the model when the queryset is evaluated and
raises `FieldError` (here `Except.error`) on the first keyword that does
not resolve, before looking at any row; otherwise the rows are filtered by
the conjunction of the conditions. -/
def filterQ (kwargs : List (String × Bool)) (rows : List MsgQueryRow) :
    Except String (List MsgQueryRow) :=
  match kwargs.find? (fun kv => !(messageFieldNames.contains (lookupBase kv.1))) with
  | some kv =>
    Except.error ("Cannot resolve keyword '" ++ lookupBase kv.1 ++ "' into field.")
  | none => Except.ok (rows.filter (fun r => kwargs.all (fun kv => evalKnown r kv.1 kv.2)))

/-- The keywords of `q = Q(read_to_send=True, send__isnull=True)` built in
`Command.handle` of `impression_send_emails.py`.  (The module also imports
`Q` from `django.db`, which does not export it, so in reality the module
fails at import time; the embedding models the query the code spells.) -/
def commandQ : List (String × Bool) := [("read_to_send", true), ("send__isnull", true)]

/-- The command's candidate scan:
`Message.objects.filter(q).values_list("pk", flat=True)`. -/
def commandCandidates (rows : List MsgQueryRow) : Except String (List Nat) :=
  (filterQ commandQ rows).map (List.map MsgQueryRow.pk)

/-- The keywords of `Message.ready_query = models.Q(ready_to_send=True,
send__isnull=True)` (`impression/models/message.py`, line 123). -/
def ready_query : List (String × Bool) := [("ready_to_send", true), ("send__isnull", true)]

/-- C8 (code bug): the re-drive candidate query never selects anything —
for every database state it raises `FieldError`, because `read_to_send` is
not a field of `Message` (the field is `ready_to_send`); the model's own
`ready_query` constant fails too, on `send` (the field is `sent`); with the
correctly spelled keywords the very same filter would select exactly the
rows with `ready_to_send = true` and `sent IS NULL`, as the spec states. -/
theorem command_candidate_query_field_error :
    (∀ rows, commandCandidates rows =
       Except.error "Cannot resolve keyword 'read_to_send' into field.") ∧
    (∀ rows, filterQ ready_query rows =
       Except.error "Cannot resolve keyword 'send' into field.") ∧
    (∀ rows, filterQ [("ready_to_send", true), ("sent__isnull", true)] rows =
       Except.ok (rows.filter (fun r => r.ready_to_send && r.sent.isNone))) := by
  refine ⟨?_, ?_, ?_⟩
  · intro rows
    simp [commandCandidates, filterQ, commandQ, messageFieldNames, lookupBase,
      lookupBaseChars, Except.map]
  · intro rows
    simp [filterQ, ready_query, messageFieldNames, lookupBase, lookupBaseChars]
  · intro rows
    have h : ∀ r : MsgQueryRow,
        ([("ready_to_send", true), ("sent__isnull", true)].all
          (fun kv => evalKnown r kv.1 kv.2)) = (r.ready_to_send && r.sent.isNone) := by
      intro r
      simp [evalKnown]
    have hfind : List.find?
        (fun kv => !(messageFieldNames.contains (lookupBase kv.1)))
        [("ready_to_send", true), ("sent__isnull", true)] = none := by decide
    simp only [filterQ]
    rw [hfind]
    exact congrArg Except.ok (List.filter_congr (fun r _ => h r))
